import Mathlib

/-!
Verification development for the SimView interactive diffraction simulator
(`command_line/sim_view.py`).  The parameter/dial state machine, the
experiment-mode switch, the spectrum model, the image normalization pipeline
and the amplitude resolver are embedded shallowly: dial values are exact
rationals, the external diffraction simulator, the floating-point `10**x`
brightness map and the external Gaussian profile are opaque function
parameters carried in the session state, and the stochastic SASE pulse
source (which lives outside the embedded file) is modelled from the spec.
-/

namespace SimView

/-- A mutable string-keyed value store (`self._VALUES` / `self._DISABLED_VALUES`
are Python dicts from dial name to float). -/
abbrev VMap := String → Option ℚ

/-- Python `d[k] = v`. -/
def mapInsert (m : VMap) (k : String) (v : ℚ) : VMap :=
  fun j => if j = k then some v else m j

/-- Python `del d[k]`. -/
def mapErase (m : VMap) (k : String) : VMap :=
  fun j => if j = k then none else m j

@[simp] theorem mapInsert_same (m : VMap) (k : String) (v : ℚ) :
    mapInsert m k v k = some v := by simp [mapInsert]

theorem mapInsert_other (m : VMap) (k j : String) (v : ℚ) (h : j ≠ k) :
    mapInsert m k v j = m j := by simp [mapInsert, h]

@[simp] theorem mapErase_same (m : VMap) (k : String) :
    mapErase m k k = none := by simp [mapErase]

theorem mapErase_other (m : VMap) (k j : String) (h : j ≠ k) :
    mapErase m k j = m j := by simp [mapErase, h]

/-- One dial's configuration row `[min, max, small_step, big_step, default]`
from the `params` table. -/
structure DialSpec where
  min : ℚ
  max : ℚ
  small_step : ℚ
  big_step : ℚ
  default : ℚ
deriving DecidableEq

/-- A unit cell `(a, b, c, alpha, beta, gamma)`. -/
structure UCell where
  a : ℚ
  b : ℚ
  c : ℚ
  al : ℚ
  be : ℚ
  ga : ℚ
deriving DecidableEq

/-- `self.spectrum_shape ∈ {"Gaussian", "SASE", "monochromatic"}`. -/
inductive SpectrumShape where
  | gaussian
  | sase
  | monochromatic
deriving DecidableEq

/-- The argument snapshot handed to the external simulator (`run_simdata` for
stills, `sweep` for rotation).  Missetting angles are recorded in degrees; the
`math.pi/180` conversion applied at the call site is a fixed bijection folded
into the opaque simulator function. -/
structure SimCall where
  useSF : Bool
  sweepCall : Bool
  phiStart : ℚ
  phiStep : ℚ
  phiRange : ℚ
  ucell : UCell
  domain : ℚ × ℚ × ℚ
  rotXdeg : ℚ
  rotYdeg : ℚ
  rotZdeg : ℚ
  spectrum : List (ℚ × ℚ)
  eta : ℚ
  diffuseGamma : Option (ℚ × ℚ × ℚ)
  diffuseSigma : Option (ℚ × ℚ × ℚ)
  ori : ℚ

/-- The mutable session state held on the `SimView` controller object.  The
external collaborators (the pixel simulator, the `scitbx` Gaussian profile and
the floating-point `10**x` used for the brightness percentile) are opaque
function-valued fields that no operation ever mutates. -/
structure SimState where
  params : String → Option DialSpec
  paramsOrderedList : List String
  values : VMap
  disabledValues : VMap
  dialNames : List String
  currentDial : String
  currentExpt : String
  rotation : Bool
  diffuseScattering : Bool
  fhkl : Bool
  spectrumShape : SpectrumShape
  spectrumAng : List (ℚ × ℚ)
  saseIter : ℚ × ℕ
  pulseEnergiesAng : List ℚ
  fluxList : List ℚ
  percentile : ℚ
  ucell : UCell
  scaledUcell : UCell
  defaultAmp : ℚ
  amplitudeLookup : List ((ℤ × ℤ × ℤ) × ℚ)
  imgRef : List ℚ
  imgSim : List ℚ
  overlayRed : List ℚ
  overlayGreen : List ℚ
  overlayBlue : List ℚ
  singleGreen : List ℚ
  singleBlue : List ℚ
  ori : ℚ
  startOri : ℚ
  gaussFlux : ℚ → ℤ → ℚ
  powTen : ℚ → ℚ
  simulate : SimCall → List ℚ

/-- `self._VALUES[k]` (all embedded reads are of keys present in the store;
a missing key defaults to `0` rather than modelling Python's `KeyError`). -/
def dialValue (s : SimState) (k : String) : ℚ := (s.values k).getD 0

/-- `np.percentile(data, p)` with numpy's default linear interpolation:
sort ascending, take rank `p/100 * (n-1)` and interpolate linearly between
the two neighbouring order statistics. -/
def percentileValue (p : ℚ) (data : List ℚ) : ℚ :=
  let sorted := data.insertionSort (· ≤ ·)
  let n : ℕ := data.length
  let r : ℚ := p / 100 * ((n : ℚ) - 1)
  let k : ℕ := (⌊r⌋).toNat
  let f : ℚ := r - (k : ℚ)
  let lo := sorted.getD k 0
  let hi := sorted.getD (k + 1) lo
  lo + f * (hi - lo)

/-- The `1e-50` guard in `_normalize_image_data`. -/
def epsQ : ℚ := 1 / 10 ^ 50

/-- `_normalize_image_data(img_data)`: scale by
`1/max(1e-50, np.percentile(img_data, percentile))` and clip values above 1. -/
def normalizeImageData (percentile : ℚ) (imgData : List ℚ) : List ℚ :=
  let scale := 1 / max epsQ (percentileValue percentile imgData)
  imgData.map (fun v => min (v * scale) 1)

/-- `np.median`: middle order statistic, or the mean of the two middle order
statistics for even length. -/
def npMedian (xs : List ℚ) : ℚ :=
  let sorted := xs.insertionSort (· ≤ ·)
  let n := xs.length
  if n % 2 = 1 then sorted.getD (n / 2) 0
  else (sorted.getD (n / 2 - 1) 0 + sorted.getD (n / 2) 0) / 2

/-- Python dict lookup over the insertion list: a later duplicate key
overwrites an earlier one, so the last matching pair wins. -/
def dictGet (pairs : List ((ℤ × ℤ × ℤ) × ℚ)) (k : ℤ × ℤ × ℤ) : Option ℚ :=
  pairs.foldl (fun acc p => if p.1 = k then some p.2 else acc) none

/-- Modelled from the spec: the recast wavelength list of one SASE pulse.
`local_spectra.spectra_simulation` is repository code that is not part of the
embedded file; per the spec it is a resumable generator of stochastic pulses
(re-created from pulse 0 on re-initialization, recast about the requested
central energy) and successive pulses are distinct (§8: a new-pulse request
changes the spectrum).  The family below realises that: it is injective in
the (energy, pulse index) pair that the generator state determines. -/
def sasePulseAng (energy : ℚ) (_k : ℕ) : List ℚ := [12398 / energy]

/-- Modelled from the spec: the flux list of one SASE pulse; see
`sasePulseAng`.  The index component makes distinct pulses of one sequence
distinct, as the spec requires of the stochastic source. -/
def sasePulseFlux (_energy : ℚ) (k : ℕ) : List ℚ := [(k : ℚ) + 1]

/-- The energy offsets `range(-50, 51)` of the Gaussian spectrum. -/
def gaussOffsets : List ℤ := (List.range 101).map (fun i => (i : ℤ) - 50)

/-- `_update_spectrum(new_pulse, init)`. -/
def updateSpectrum (s : SimState) (newPulse ini : Bool) : SimState :=
  match s.spectrumShape with
  | .gaussian =>
      let bw := 1 / 100 * dialValue s "Bandwidth" * dialValue s "Energy"
      let spectrumEV := gaussOffsets.map
        (fun (x : ℤ) => ((x : ℚ) + dialValue s "Energy", 10 ^ 12 * s.gaussFlux bw x))
      { s with spectrumAng := spectrumEV.map (fun p => (12398 / p.1, p.2)) }
  | .sase =>
      let iter1 := if ini then (dialValue s "Energy", 0) else s.saseIter
      let drawn :=
        if newPulse || ini then
          (sasePulseAng iter1.1 iter1.2, sasePulseFlux iter1.1 iter1.2,
            (iter1.1, iter1.2 + 1))
        else (s.pulseEnergiesAng, s.fluxList, iter1)
      { s with saseIter := drawn.2.2, pulseEnergiesAng := drawn.1,
               fluxList := drawn.2.1, spectrumAng := drawn.1.zip drawn.2.1 }
  | .monochromatic =>
      { s with spectrumAng := [(12398 / dialValue s "Energy", 10 ^ 12)] }

/-- `_update_ucell(dial, new_value)`: rescale the coupled lengths, always
relative to the nominal `self.ucell`, copying the nominal angles. -/
def updateUcell (s : SimState) (dial : String) (newValue : ℚ) : SimState :=
  if dial = "a" then
    let a := newValue
    let scale := newValue / s.ucell.a
    let b := if "b" ∈ s.dialNames then s.scaledUcell.b else scale * s.ucell.b
    let c := if "c" ∈ s.dialNames then s.scaledUcell.c else scale * s.ucell.c
    { s with scaledUcell := ⟨a, b, c, s.ucell.al, s.ucell.be, s.ucell.ga⟩ }
  else if dial = "b" then
    let a := s.scaledUcell.a
    let b := newValue
    let scale := newValue / s.ucell.b
    let c := if "c" ∈ s.dialNames then s.scaledUcell.c else scale * s.ucell.c
    { s with scaledUcell := ⟨a, b, c, s.ucell.al, s.ucell.be, s.ucell.ga⟩ }
  else if dial = "c" then
    { s with scaledUcell :=
        ⟨s.scaledUcell.a, s.scaledUcell.b, newValue,
          s.ucell.al, s.ucell.be, s.ucell.ga⟩ }
  else s

/-- `_update_normalization`: `percentile = 100 - 10**(2*brightness - 2)`,
with the float `10**x` as the opaque field `powTen`; then re-normalize the
red (reference) channel. -/
def updateNormalization (s : SimState) : SimState :=
  let exponent := dialValue s "Brightness" * 2 - 2
  let percentile := 100 - s.powTen exponent
  { s with percentile := percentile,
           overlayRed := normalizeImageData percentile s.imgRef }

/-- The argument snapshot of the simulator call in `_generate_image_data`. -/
def mkSimCall (s : SimState) : SimCall :=
  { useSF := s.fhkl
    sweepCall := s.rotation
    phiStart := if s.rotation then dialValue s "Delta_phi" * (dialValue s "Image" - 1) else 0
    phiStep := if s.rotation then dialValue s "Delta_phi" / 10 else 0
    phiRange := if s.rotation then dialValue s "Delta_phi" else 0
    ucell := s.scaledUcell
    domain := (dialValue s "DomainSize", dialValue s "DomainSize", dialValue s "DomainSize")
    rotXdeg := if s.rotation then 0 else dialValue s "RotX"
    rotYdeg := if s.rotation then 0 else dialValue s "RotY"
    rotZdeg := dialValue s "RotZ"
    spectrum := s.spectrumAng
    eta := dialValue s "MosAngDeg"
    diffuseGamma :=
      if s.diffuseScattering then
        some (dialValue s "Diff_gamma" * dialValue s "Diff_aniso",
          dialValue s "Diff_gamma",
          dialValue s "Diff_gamma" * dialValue s "Diff_aniso")
      else none
    diffuseSigma :=
      if s.diffuseScattering then
        some (dialValue s "Diff_sigma" * dialValue s "Diff_aniso",
          dialValue s "Diff_sigma" / dialValue s "Diff_aniso",
          dialValue s "Diff_sigma" / dialValue s "Diff_aniso")
      else none
    ori := s.ori }

/-- `_generate_image_data(update_ref)`: run the simulator, store the pixels in
`img_sim`, copy them into `img_ref` only when `update_ref` is set, and rebuild
the derived display channels. -/
def generateImageData (s : SimState) (updateRef : Bool) : SimState :=
  let pix := s.simulate (mkSimCall s)
  let newRef := if updateRef then pix else s.imgRef
  { s with imgSim := pix, imgRef := newRef,
           overlayRed := normalizeImageData s.percentile newRef,
           overlayGreen := normalizeImageData s.percentile (List.zipWith (· + ·) pix newRef),
           overlayBlue := normalizeImageData s.percentile pix,
           singleGreen := normalizeImageData s.percentile pix,
           singleBlue := normalizeImageData s.percentile pix }

/-- `_set_new_value(dial, new_value)` (label formatting, a UI string, is not
modelled). -/
def setNewValue (s : SimState) (dial : String) (newValue : ℚ) : SimState :=
  let s1 := { s with values := mapInsert s.values dial newValue }
  let s2 :=
    if dial = "Energy" ∨ dial = "Bandwidth" then updateSpectrum s1 false true
    else if dial = "a" ∨ dial = "b" ∨ dial = "c" then updateUcell s1 dial newValue
    else if dial = "Brightness" then updateNormalization s1
    else s1
  generateImageData s2 false

/-- `_small_step_up`. -/
def smallStepUp (s : SimState) : SimState :=
  let sp := (s.params s.currentDial).getD ⟨0, 0, 0, 0, 0⟩
  let newValue := dialValue s s.currentDial + sp.small_step
  if newValue ≤ sp.max then setNewValue s s.currentDial newValue else s

/-- `_big_step_up`. -/
def bigStepUp (s : SimState) : SimState :=
  let sp := (s.params s.currentDial).getD ⟨0, 0, 0, 0, 0⟩
  let newValue := dialValue s s.currentDial + sp.big_step
  if newValue ≤ sp.max then setNewValue s s.currentDial newValue else s

/-- `_small_step_down`. -/
def smallStepDown (s : SimState) : SimState :=
  let sp := (s.params s.currentDial).getD ⟨0, 0, 0, 0, 0⟩
  let newValue := dialValue s s.currentDial - sp.small_step
  if sp.min ≤ newValue then setNewValue s s.currentDial newValue else s

/-- `_big_step_down`. -/
def bigStepDown (s : SimState) : SimState :=
  let sp := (s.params s.currentDial).getD ⟨0, 0, 0, 0, 0⟩
  let newValue := dialValue s s.currentDial - sp.big_step
  if sp.min ≤ newValue then setNewValue s s.currentDial newValue else s

/-- `_reset`: restore defaults for the dials in `self.dial_names` only, reset
the crystal orientation to `start_ori`, and regenerate both image buffers. -/
def resetAll (s : SimState) : SimState :=
  let newValues := fun k =>
    if k ∈ s.dialNames then some (((s.params k).getD ⟨0, 0, 0, 0, 0⟩).default)
    else s.values k
  generateImageData { s with values := newValues, ori := s.startOri } true

/-- Move `k` from `src` to `dst` if present (`_refresh_dial_options` loops). -/
def moveKey (src dst : VMap) (k : String) : VMap × VMap :=
  match src k with
  | some v => (mapErase src k, mapInsert dst k v)
  | none => (src, dst)

/-- `_refresh_dial_options`: shuffle the mode-exclusive dials between the
active and disabled stores and rebuild the active list in the canonical
order.  In the source, `self.dial_choice` is a Tk `StringVar` object that is
never `==` to any name string, so the membership test
`self.dial_choice not in self.dial_names` is always true and the current
dial is always reset to the first active name. -/
def refreshDialOptions (s : SimState) : SimState :=
  let moved :=
    if s.rotation then
      let m1 := moveKey s.values s.disabledValues "Bandwidth"
      let m2 := moveKey m1.1 m1.2 "RotX"
      let m3 := moveKey m2.1 m2.2 "RotY"
      let m4 := moveKey m3.2 m3.1 "Delta_phi"
      let m5 := moveKey m4.1 m4.2 "Image"
      (m5.2, m5.1)
    else
      let m1 := moveKey s.disabledValues s.values "Bandwidth"
      let m2 := moveKey m1.1 m1.2 "RotX"
      let m3 := moveKey m2.1 m2.2 "RotY"
      let m4 := moveKey m3.2 m3.1 "Delta_phi"
      let m5 := moveKey m4.1 m4.2 "Image"
      (m5.1, m5.2)
  let names := s.paramsOrderedList.filter (fun n => (moved.1 n).isSome)
  { s with values := moved.1, disabledValues := moved.2, dialNames := names,
           currentDial := names.headD s.currentDial }

/-- `_update_still_or_rot(new_choice)`: note that the spectrum model is NOT
re-run here; only the shape tag changes. -/
def updateStillOrRot (s : SimState) (newChoice : String) : SimState :=
  if newChoice = s.currentExpt then s
  else
    let s1 := { s with currentExpt := newChoice,
                       rotation := newChoice == "Rotation" }
    let s2 := if s1.rotation then { s1 with spectrumShape := .monochromatic } else s1
    generateImageData (refreshDialOptions s2) false

/-- `_toggle_diffuse_scattering`. -/
def toggleDiffuseScattering (s : SimState) : SimState :=
  generateImageData { s with diffuseScattering := !s.diffuseScattering } false

/-- `_toggle_Fhkl`. -/
def toggleFhkl (s : SimState) : SimState :=
  generateImageData { s with fhkl := !s.fhkl } false

/-- `_toggle_spectrum_shape`: cycle Gaussian → SASE → monochromatic → … and
re-run the spectrum model, with `init` set exactly when the new shape is SASE. -/
def toggleSpectrumShape (s : SimState) : SimState :=
  let nextShape :=
    match s.spectrumShape with
    | .gaussian => SpectrumShape.sase
    | .sase => SpectrumShape.monochromatic
    | .monochromatic => SpectrumShape.gaussian
  let s1 := { s with spectrumShape := nextShape }
  generateImageData (updateSpectrum s1 false (nextShape == .sase)) false

/-- `_new_pulse` (space bar). -/
def newPulseRequest (s : SimState) : SimState :=
  generateImageData (updateSpectrum s true false) false

/-- `_randomize_orientation` with the externally drawn orientation passed in
(both `SIM` and `SIM_noSF` receive the same seeds, hence one `ori` field). -/
def randomizeOri (s : SimState) (newOri : ℚ) : SimState :=
  generateImageData { s with ori := newOri } true

/-- `_update_reference`. -/
def updateReference (s : SimState) : SimState :=
  generateImageData s true

/-- The amplitude reported by `_annotate`'s mouse-label closure for an integer
Miller index. -/
def annotateAmp (s : SimState) (key : ℤ × ℤ × ℤ) : ℚ :=
  if s.fhkl && (dictGet s.amplitudeLookup key).isSome then
    (dictGet s.amplitudeLookup key).getD 0
  else if s.fhkl then 0
  else s.defaultAmp

/-- `__init__` lines building the amplitude table: `_make_miller_lookup` zips
the miller indices with their amplitudes into a dict, and `default_amp` is
`np.median` of the amplitude data. -/
def loadMillerData (s : SimState) (idxs : List (ℤ × ℤ × ℤ)) (data : List ℚ) :
    SimState :=
  { s with amplitudeLookup := idxs.zip data, defaultAmp := npMedian data }

/-- The Python exceptions that the dial-cycling handlers can raise. -/
inductive PyErr where
  | indexErr
  | valueErr
  | typeErr
deriving DecidableEq

/-- Python `l[i]` on a list: negative indices count from the end and
out-of-range access raises `IndexError`. -/
def pyGetItem (l : List String) (i : ℤ) : Except PyErr String :=
  let n : ℤ := l.length
  let j := if i < 0 then i + n else i
  if 0 ≤ j ∧ j < n then .ok (l.getD j.toNat "") else .error .indexErr

/-- Python `l.index(x)`: position of the first occurrence, `ValueError` if
absent. -/
def listIndexOf (l : List String) (x : String) : Except PyErr ℕ :=
  if x ∈ l then .ok (l.indexOf x) else .error .valueErr

/-- The call `self._update_dial(new_dial)` in `_next_dial`/`_prev_dial`:
`_update_dial` is declared as `def _update_dial(self):` with no further
parameter, so passing a dial name raises `TypeError` (which the surrounding
`except IndexError` does not catch). -/
def updateDialCall (_s : SimState) (_newDial : String) : Except PyErr SimState :=
  .error .typeErr

/-- The dial name `_next_dial` computes: the successor in the active list, or
the first name when the successor index overruns (`except IndexError`). -/
def nextDialCandidate (s : SimState) : Except PyErr String :=
  match listIndexOf s.dialNames s.currentDial with
  | .error e => .error e
  | .ok i =>
    match pyGetItem s.dialNames ((i : ℤ) + 1) with
    | .ok nd => .ok nd
    | .error .indexErr => pyGetItem s.dialNames 0
    | .error e => .error e

/-- The dial name `_prev_dial` computes: index `i - 1`, which for `i = 0` is
Python's `-1`, i.e. the last element of the list. -/
def prevDialCandidate (s : SimState) : Except PyErr String :=
  match listIndexOf s.dialNames s.currentDial with
  | .error e => .error e
  | .ok i => pyGetItem s.dialNames ((i : ℤ) - 1)

/-- `_next_dial(tkevent)`. -/
def nextDialKey (s : SimState) : Except PyErr SimState :=
  match listIndexOf s.dialNames s.currentDial with
  | .error e => .error e
  | .ok i =>
    match pyGetItem s.dialNames ((i : ℤ) + 1) with
    | .ok nd => updateDialCall s nd
    | .error .indexErr =>
      match pyGetItem s.dialNames 0 with
      | .ok nd => updateDialCall s nd
      | .error e => .error e
    | .error e => .error e

/-- `_prev_dial(tkevent)` (`except IndexError: pass` leaves the state as is). -/
def prevDialKey (s : SimState) : Except PyErr SimState :=
  match listIndexOf s.dialNames s.currentDial with
  | .error e => .error e
  | .ok i =>
    match pyGetItem s.dialNames ((i : ℤ) - 1) with
    | .ok nd => updateDialCall s nd
    | .error .indexErr => .ok s
    | .error e => .error e

/-- The `params` table of `__main__`, with the `ucell_scale` row expanded into
the `a`, `b`, `c` rows by `_load_params_only` (each scale multiplied by the
nominal cell length of the loaded model). -/
def paramsOf (u : UCell) : String → Option DialSpec := fun k =>
  if k = "DomainSize" then some ⟨6, 200, 2, 10, 30⟩
  else if k = "MosAngDeg" then some ⟨1/100, 5, 1/100, 1/10, 1001/10000⟩
  else if k = "Diff_gamma" then some ⟨1, 1000, 1, 10, 50⟩
  else if k = "Diff_sigma" then some ⟨1/1000, 5, 1/10, 1, 1601/10000⟩
  else if k = "Diff_aniso" then some ⟨1/100, 10, 1/100, 1/10, 2⟩
  else if k = "Energy" then some ⟨6500, 12000, 10, 30, 9500⟩
  else if k = "Bandwidth" then some ⟨1/100, 501/100, 1/10, 1, 31/100⟩
  else if k = "RotX" then some ⟨-180, 180, 1/100, 1/10, 0⟩
  else if k = "RotY" then some ⟨-180, 180, 1/100, 1/10, 0⟩
  else if k = "RotZ" then some ⟨-180, 180, 1/100, 1/10, 0⟩
  else if k = "Delta_phi" then some ⟨1/10, 5, 1/20, 1/2, 1/4⟩
  else if k = "Image" then some ⟨1, 100, 1, 10, 1⟩
  else if k = "Brightness" then some ⟨0, 2, 1/100, 1/10, 1/2⟩
  else if k = "a" then some ⟨u.a/2, 2*u.a, u.a/20, u.a/10, u.a⟩
  else if k = "b" then some ⟨u.b/2, 2*u.b, u.b/20, u.b/10, u.b⟩
  else if k = "c" then some ⟨u.c/2, 2*u.c, u.c/20, u.c/10, u.c⟩
  else none

/-- The canonical dial order: the insertion order of the `params` dict, where
`_load_params_only` appends `a`, `b`, `c` (new keys) and removes
`ucell_scale`. -/
def paramsOrder : List String :=
  ["DomainSize", "MosAngDeg", "Diff_gamma", "Diff_sigma", "Diff_aniso",
   "Energy", "Bandwidth", "RotX", "RotY", "RotZ", "Delta_phi", "Image",
   "Brightness", "a", "b", "c"]

/-- A tetragonal-like nominal unit cell for the concrete session: `b` is
locked to `a` by symmetry, so `_load_params_only` deletes the `b` dial and
only `a` and `c` remain free (the `{a, c}` coupling pattern). -/
def nominalUcell : UCell := ⟨79, 79, 38, 90, 90, 90⟩

/-- The session state right after `_load_params_only` for `nominalUcell`
(symmetry keeps `a` and `c` free, deletes `b`), with the opaque collaborators
given concrete harmless instantiations so the state is fully computable. -/
def initStateRaw : SimState :=
  { params := paramsOf nominalUcell
    paramsOrderedList := paramsOrder
    values := fun k =>
      if k = "b" then none else (paramsOf nominalUcell k).map DialSpec.default
    disabledValues := fun _ => none
    dialNames := paramsOrder.filter (fun n => n ≠ "b")
    currentDial := "DomainSize"
    currentExpt := "Serial (stills)"
    rotation := false
    diffuseScattering := false
    fhkl := true
    spectrumShape := .gaussian
    spectrumAng := []
    saseIter := (0, 0)
    pulseEnergiesAng := []
    fluxList := []
    percentile := 999/10
    ucell := nominalUcell
    scaledUcell := nominalUcell
    defaultAmp := 0
    amplitudeLookup := []
    imgRef := []
    imgSim := []
    overlayRed := []
    overlayGreen := []
    overlayBlue := []
    singleGreen := []
    singleBlue := []
    ori := 0
    startOri := 0
    gaussFlux := fun _ _ => 1
    powTen := fun _ => 1/10
    simulate := fun _ => [] }

/-- A small concrete Miller index table for the session. -/
def millerIdxsInit : List (ℤ × ℤ × ℤ) := [(1, 0, 0), (0, 1, 0), (0, 0, 1)]

/-- The amplitudes of `millerIdxsInit` (median 7). -/
def millerDataInit : List ℚ := [5, 9, 7]

/-- The fully initialized session: `__init__` builds the amplitude table,
runs `_update_spectrum(init=True)`, generates the first image with
`update_ref=True`, calls `_reset()` and finally `_refresh_dial_options()`. -/
def initState : SimState :=
  refreshDialOptions (resetAll (generateImageData
    (updateSpectrum (loadMillerData initStateRaw millerIdxsInit millerDataInit)
      false true) true))

/-! ### Helper lemmas: which state fields each operation leaves untouched -/

theorem updateSpectrum_values (s : SimState) (np ini : Bool) :
    (updateSpectrum s np ini).values = s.values := by
  cases h : s.spectrumShape <;> simp [updateSpectrum, h]

theorem updateSpectrum_scaledUcell (s : SimState) (np ini : Bool) :
    (updateSpectrum s np ini).scaledUcell = s.scaledUcell := by
  cases h : s.spectrumShape <;> simp [updateSpectrum, h]

theorem updateSpectrum_imgRef (s : SimState) (np ini : Bool) :
    (updateSpectrum s np ini).imgRef = s.imgRef := by
  cases h : s.spectrumShape <;> simp [updateSpectrum, h]

theorem updateSpectrum_dialNames (s : SimState) (np ini : Bool) :
    (updateSpectrum s np ini).dialNames = s.dialNames := by
  cases h : s.spectrumShape <;> simp [updateSpectrum, h]

theorem updateSpectrum_disabledValues (s : SimState) (np ini : Bool) :
    (updateSpectrum s np ini).disabledValues = s.disabledValues := by
  cases h : s.spectrumShape <;> simp [updateSpectrum, h]

theorem updateSpectrum_spectrumShape (s : SimState) (np ini : Bool) :
    (updateSpectrum s np ini).spectrumShape = s.spectrumShape := by
  cases h : s.spectrumShape <;> simp [updateSpectrum, h]

theorem updateUcell_values (s : SimState) (d : String) (v : ℚ) :
    (updateUcell s d v).values = s.values := by
  simp only [updateUcell]; split_ifs <;> rfl

theorem updateUcell_imgRef (s : SimState) (d : String) (v : ℚ) :
    (updateUcell s d v).imgRef = s.imgRef := by
  simp only [updateUcell]; split_ifs <;> rfl

theorem updateUcell_dialNames (s : SimState) (d : String) (v : ℚ) :
    (updateUcell s d v).dialNames = s.dialNames := by
  simp only [updateUcell]; split_ifs <;> rfl

theorem generateImageData_values (s : SimState) (b : Bool) :
    (generateImageData s b).values = s.values := rfl

theorem generateImageData_disabledValues (s : SimState) (b : Bool) :
    (generateImageData s b).disabledValues = s.disabledValues := rfl

theorem generateImageData_scaledUcell (s : SimState) (b : Bool) :
    (generateImageData s b).scaledUcell = s.scaledUcell := rfl

theorem generateImageData_dialNames (s : SimState) (b : Bool) :
    (generateImageData s b).dialNames = s.dialNames := rfl

theorem generateImageData_spectrumAng (s : SimState) (b : Bool) :
    (generateImageData s b).spectrumAng = s.spectrumAng := rfl

theorem generateImageData_spectrumShape (s : SimState) (b : Bool) :
    (generateImageData s b).spectrumShape = s.spectrumShape := rfl

theorem setNewValue_values (s : SimState) (d : String) (v : ℚ) :
    (setNewValue s d v).values = mapInsert s.values d v := by
  simp only [setNewValue]
  split_ifs <;>
    simp [generateImageData_values, updateSpectrum_values, updateUcell_values,
      updateNormalization]

theorem setNewValue_imgRef (s : SimState) (d : String) (v : ℚ) :
    (setNewValue s d v).imgRef = s.imgRef := by
  simp only [setNewValue]
  split_ifs <;>
    simp [generateImageData, updateSpectrum_imgRef, updateUcell_imgRef,
      updateNormalization]

theorem setNewValue_dialNames (s : SimState) (d : String) (v : ℚ) :
    (setNewValue s d v).dialNames = s.dialNames := by
  simp only [setNewValue]
  split_ifs <;>
    simp [generateImageData_dialNames, updateSpectrum_dialNames,
      updateUcell_dialNames, updateNormalization]

theorem dialValue_setNewValue_same (s : SimState) (d : String) (v : ℚ) :
    dialValue (setNewValue s d v) d = v := by
  simp [dialValue, setNewValue_values]

theorem dialValue_setNewValue_other (s : SimState) (d k : String) (v : ℚ)
    (h : k ≠ d) : dialValue (setNewValue s d v) k = dialValue s k := by
  simp [dialValue, setNewValue_values, mapInsert, h]

theorem updateSpectrum_params (s : SimState) (np ini : Bool) :
    (updateSpectrum s np ini).params = s.params := by
  cases h : s.spectrumShape <;> simp [updateSpectrum, h]

theorem updateUcell_params (s : SimState) (d : String) (v : ℚ) :
    (updateUcell s d v).params = s.params := by
  simp only [updateUcell]; split_ifs <;> rfl

theorem updateUcell_disabledValues (s : SimState) (d : String) (v : ℚ) :
    (updateUcell s d v).disabledValues = s.disabledValues := by
  simp only [updateUcell]; split_ifs <;> rfl

theorem setNewValue_params (s : SimState) (d : String) (v : ℚ) :
    (setNewValue s d v).params = s.params := by
  simp only [setNewValue]
  split_ifs <;>
    simp [generateImageData, updateSpectrum_params, updateUcell_params,
      updateNormalization]

theorem setNewValue_disabledValues (s : SimState) (d : String) (v : ℚ) :
    (setNewValue s d v).disabledValues = s.disabledValues := by
  simp only [setNewValue]
  split_ifs <;>
    simp [generateImageData, updateSpectrum_disabledValues,
      updateUcell_disabledValues, updateNormalization]

theorem resetAll_scaledUcell (s : SimState) :
    (resetAll s).scaledUcell = s.scaledUcell := rfl

theorem resetAll_disabledValues (s : SimState) :
    (resetAll s).disabledValues = s.disabledValues := rfl

theorem resetAll_params (s : SimState) : (resetAll s).params = s.params := rfl

theorem resetAll_values (s : SimState) :
    (resetAll s).values = fun k =>
      if k ∈ s.dialNames then some (((s.params k).getD ⟨0, 0, 0, 0, 0⟩).default)
      else s.values k := rfl

/-- A step that stays within range commits `current + small_step` through
`_set_new_value`. -/
theorem smallStepUp_accepted (s : SimState) (sp : DialSpec)
    (hp : s.params s.currentDial = some sp)
    (h : dialValue s s.currentDial + sp.small_step ≤ sp.max) :
    smallStepUp s =
      setNewValue s s.currentDial (dialValue s s.currentDial + sp.small_step) := by
  have hgetD : (s.params s.currentDial).getD ⟨0, 0, 0, 0, 0⟩ = sp := by
    rw [hp]; rfl
  simp only [smallStepUp, hgetD]
  rw [if_pos h]

/-- Editing the `a` dial when `b` is symmetry-locked and `c` is free: the
scaled cell gets `a = v`, the derived `b = (v / nominal_a) * nominal_b`, and
the previous scaled `c`. -/
theorem setNewValue_a_scaledUcell (s : SimState) (v : ℚ)
    (hb : "b" ∉ s.dialNames) (hc : "c" ∈ s.dialNames) :
    (setNewValue s "a" v).scaledUcell =
      ⟨v, v / s.ucell.a * s.ucell.b, s.scaledUcell.c,
        s.ucell.al, s.ucell.be, s.ucell.ga⟩ := by
  simp only [setNewValue]
  norm_num
  simp [generateImageData_scaledUcell, updateUcell, hb, hc, mul_comm]

/-! ### Claim theorems -/

/-- Claim C4: for every dial and all four step operations, a candidate value
`current ± step` outside `[min, max]` leaves the whole session state unchanged
(no clamping, no error), and the invariant `min ≤ value ≤ max` is preserved by
every step operation, both for the stepped dial and (trivially) for every
other dial, whose stored value is untouched. -/
theorem step_bounds (s : SimState) (sp : DialSpec)
    (hp : s.params s.currentDial = some sp)
    (hss : 0 ≤ sp.small_step) (hbs : 0 ≤ sp.big_step)
    (hlo : sp.min ≤ dialValue s s.currentDial)
    (hhi : dialValue s s.currentDial ≤ sp.max) :
    (sp.max < dialValue s s.currentDial + sp.small_step → smallStepUp s = s) ∧
    (sp.max < dialValue s s.currentDial + sp.big_step → bigStepUp s = s) ∧
    (dialValue s s.currentDial - sp.small_step < sp.min → smallStepDown s = s) ∧
    (dialValue s s.currentDial - sp.big_step < sp.min → bigStepDown s = s) ∧
    (sp.min ≤ dialValue (smallStepUp s) s.currentDial ∧
      dialValue (smallStepUp s) s.currentDial ≤ sp.max) ∧
    (sp.min ≤ dialValue (bigStepUp s) s.currentDial ∧
      dialValue (bigStepUp s) s.currentDial ≤ sp.max) ∧
    (sp.min ≤ dialValue (smallStepDown s) s.currentDial ∧
      dialValue (smallStepDown s) s.currentDial ≤ sp.max) ∧
    (sp.min ≤ dialValue (bigStepDown s) s.currentDial ∧
      dialValue (bigStepDown s) s.currentDial ≤ sp.max) ∧
    (∀ k, k ≠ s.currentDial →
      (smallStepUp s).values k = s.values k ∧
      (bigStepUp s).values k = s.values k ∧
      (smallStepDown s).values k = s.values k ∧
      (bigStepDown s).values k = s.values k) := by
  have hgetD : (s.params s.currentDial).getD ⟨0, 0, 0, 0, 0⟩ = sp := by
    rw [hp]; rfl
  refine ⟨?_, ?_, ?_, ?_, ?_, ?_, ?_, ?_, ?_⟩
  · intro h
    simp only [smallStepUp, hgetD]
    rw [if_neg (by exact not_le.mpr h)]
  · intro h
    simp only [bigStepUp, hgetD]
    rw [if_neg (by exact not_le.mpr h)]
  · intro h
    simp only [smallStepDown, hgetD]
    rw [if_neg (by exact not_le.mpr h)]
  · intro h
    simp only [bigStepDown, hgetD]
    rw [if_neg (by exact not_le.mpr h)]
  · simp only [smallStepUp, hgetD]
    by_cases hc : dialValue s s.currentDial + sp.small_step ≤ sp.max
    · rw [if_pos hc]
      rw [dialValue_setNewValue_same]
      constructor <;> linarith
    · rw [if_neg hc]
      exact ⟨hlo, hhi⟩
  · simp only [bigStepUp, hgetD]
    by_cases hc : dialValue s s.currentDial + sp.big_step ≤ sp.max
    · rw [if_pos hc]
      rw [dialValue_setNewValue_same]
      constructor <;> linarith
    · rw [if_neg hc]
      exact ⟨hlo, hhi⟩
  · simp only [smallStepDown, hgetD]
    by_cases hc : sp.min ≤ dialValue s s.currentDial - sp.small_step
    · rw [if_pos hc]
      rw [dialValue_setNewValue_same]
      constructor <;> linarith
    · rw [if_neg hc]
      exact ⟨hlo, hhi⟩
  · simp only [bigStepDown, hgetD]
    by_cases hc : sp.min ≤ dialValue s s.currentDial - sp.big_step
    · rw [if_pos hc]
      rw [dialValue_setNewValue_same]
      constructor <;> linarith
    · rw [if_neg hc]
      exact ⟨hlo, hhi⟩
  · intro k hk
    have hval : ∀ v, (setNewValue s s.currentDial v).values k = s.values k := by
      intro v
      rw [setNewValue_values, mapInsert_other _ _ _ _ hk]
    refine ⟨?_, ?_, ?_, ?_⟩ <;>
      · simp only [smallStepUp, bigStepUp, smallStepDown, bigStepDown, hgetD]
        split_ifs <;> simp [hval]

/-- Witness for C4: at the freshly initialized session (current dial
`DomainSize`, spec `[6, 200, 2, 10, 30]`), a small step preserves the
invariant. -/
theorem step_bounds_witness :
    (6 : ℚ) ≤ dialValue (smallStepUp initState) initState.currentDial ∧
      dialValue (smallStepUp initState) initState.currentDial ≤ 200 :=
  (step_bounds initState ⟨6, 200, 2, 10, 30⟩
    (by simp [initState, initStateRaw, refreshDialOptions, resetAll,
      generateImageData, updateSpectrum, loadMillerData, moveKey, mapInsert,
      mapErase, paramsOrder, paramsOf, nominalUcell])
    (by norm_num) (by norm_num)
    (by simp [initState, initStateRaw, refreshDialOptions, resetAll,
      generateImageData, updateSpectrum, loadMillerData, moveKey, mapInsert,
      mapErase, paramsOrder, paramsOf, nominalUcell, dialValue] <;> norm_num)
    (by simp [initState, initStateRaw, refreshDialOptions, resetAll,
      generateImageData, updateSpectrum, loadMillerData, moveKey, mapInsert,
      mapErase, paramsOrder, paramsOf, nominalUcell, dialValue] <;> norm_num)).2.2.2.2.1

theorem updateSpectrum_ucell (s : SimState) (np ini : Bool) :
    (updateSpectrum s np ini).ucell = s.ucell := by
  cases h : s.spectrumShape <;> simp [updateSpectrum, h]

theorem updateUcell_ucell (s : SimState) (d : String) (v : ℚ) :
    (updateUcell s d v).ucell = s.ucell := by
  simp only [updateUcell]; split_ifs <;> rfl

theorem setNewValue_ucell (s : SimState) (d : String) (v : ℚ) :
    (setNewValue s d v).ucell = s.ucell := by
  simp only [setNewValue]
  split_ifs <;>
    simp [generateImageData, updateSpectrum_ucell, updateUcell_ucell,
      updateNormalization]

/-- Claim C5: with only `{a, c}` free (the `b` dial removed by symmetry),
setting `a` to `v` sets the scaled `a` to `v`, derives the scaled `b` as
`(v / nominal_a) * nominal_b`, and leaves the scaled `c` untouched; setting
`c` changes only the scaled `c`; and a repeated edit of `a` computes from the
nominal length, so it does not compound the earlier edit. -/
theorem ucell_coupling (s : SimState) (v w : ℚ)
    (hb : "b" ∉ s.dialNames) (hc : "c" ∈ s.dialNames) :
    (setNewValue s "a" v).scaledUcell =
      ⟨v, v / s.ucell.a * s.ucell.b, s.scaledUcell.c,
        s.ucell.al, s.ucell.be, s.ucell.ga⟩ ∧
    (setNewValue s "c" w).scaledUcell =
      ⟨s.scaledUcell.a, s.scaledUcell.b, w,
        s.ucell.al, s.ucell.be, s.ucell.ga⟩ ∧
    (setNewValue (setNewValue s "a" w) "a" v).scaledUcell =
      (setNewValue s "a" v).scaledUcell := by
  have hb' : "b" ∉ (setNewValue s "a" w).dialNames := by
    rw [setNewValue_dialNames]; exact hb
  have hc' : "c" ∈ (setNewValue s "a" w).dialNames := by
    rw [setNewValue_dialNames]; exact hc
  refine ⟨setNewValue_a_scaledUcell s v hb hc, ?_, ?_⟩
  · simp only [setNewValue]
    norm_num
    simp [generateImageData_scaledUcell, updateUcell]
  · rw [setNewValue_a_scaledUcell (setNewValue s "a" w) v hb' hc',
      setNewValue_a_scaledUcell s v hb hc, setNewValue_a_scaledUcell s w hb hc,
      setNewValue_ucell]

/-- Witness for C5 at the initialized tetragonal session: stepping `a` to 82
derives `b = 82` and keeps `c = 38`. -/
theorem ucell_coupling_witness :
    (setNewValue initState "a" 82).scaledUcell =
      ⟨82, 82 / initState.ucell.a * initState.ucell.b,
        initState.scaledUcell.c,
        initState.ucell.al, initState.ucell.be, initState.ucell.ga⟩ :=
  (ucell_coupling initState 82 0
    (by simp [initState, initStateRaw, refreshDialOptions, resetAll,
      generateImageData, updateSpectrum, loadMillerData, moveKey, mapInsert,
      mapErase, paramsOrder, paramsOf, nominalUcell])
    (by simp [initState, initStateRaw, refreshDialOptions, resetAll,
      generateImageData, updateSpectrum, loadMillerData, moveKey, mapInsert,
      mapErase, paramsOrder, paramsOf, nominalUcell])).1

/-- Claim C7: the reference buffer is a frame condition of ordinary edits:
every `_set_new_value` call and both the diffuse-scattering and
structure-factor toggles (and hence all four step handlers) regenerate the
image with `update_ref=False` and leave `img_ref` untouched; `img_ref` is
overwritten with the fresh pixels exactly when the caller passes
`update_ref=True`. -/
theorem reference_frame :
    (∀ (s : SimState) (d : String) (v : ℚ),
        (setNewValue s d v).imgRef = s.imgRef) ∧
    (∀ s : SimState, (toggleDiffuseScattering s).imgRef = s.imgRef) ∧
    (∀ s : SimState, (toggleFhkl s).imgRef = s.imgRef) ∧
    (∀ s : SimState, (smallStepUp s).imgRef = s.imgRef) ∧
    (∀ s : SimState, (bigStepUp s).imgRef = s.imgRef) ∧
    (∀ s : SimState, (smallStepDown s).imgRef = s.imgRef) ∧
    (∀ s : SimState, (bigStepDown s).imgRef = s.imgRef) ∧
    (∀ (s : SimState) (b : Bool),
        (generateImageData s b).imgRef =
          if b then s.simulate (mkSimCall s) else s.imgRef) := by
  have hset : ∀ (s : SimState) (d : String) (v : ℚ),
      (setNewValue s d v).imgRef = s.imgRef := setNewValue_imgRef
  refine ⟨hset, ?_, ?_, ?_, ?_, ?_, ?_, ?_⟩
  · intro s; simp [toggleDiffuseScattering, generateImageData]
  · intro s; simp [toggleFhkl, generateImageData]
  · intro s; simp only [smallStepUp]; split_ifs <;> simp [hset]
  · intro s; simp only [bigStepUp]; split_ifs <;> simp [hset]
  · intro s; simp only [smallStepDown]; split_ifs <;> simp [hset]
  · intro s; simp only [bigStepDown]; split_ifs <;> simp [hset]
  · intro s b; rfl

/-- Claim C8: `_annotate`'s amplitude resolver: with structure factors
enabled, the amplitude for an integer Miller index is the table entry when
present and `0` when absent; with structure factors disabled it is the fixed
flat default, which `__init__` sets to the median amplitude of the table. -/
theorem amplitude_lookup (s : SimState) (idxs : List (ℤ × ℤ × ℤ))
    (data : List ℚ) (k : ℤ × ℤ × ℤ) :
    ((loadMillerData s idxs data).fhkl = true →
      ∀ a, dictGet (idxs.zip data) k = some a →
        annotateAmp (loadMillerData s idxs data) k = a) ∧
    ((loadMillerData s idxs data).fhkl = true →
      dictGet (idxs.zip data) k = none →
        annotateAmp (loadMillerData s idxs data) k = 0) ∧
    ((loadMillerData s idxs data).fhkl = false →
      annotateAmp (loadMillerData s idxs data) k = npMedian data) := by
  refine ⟨?_, ?_, ?_⟩
  · intro hf a ha
    have hf' : s.fhkl = true := hf
    simp [annotateAmp, loadMillerData, hf', ha]
  · intro hf ha
    have hf' : s.fhkl = true := hf
    simp [annotateAmp, loadMillerData, hf', ha]
  · intro hf
    have hf' : s.fhkl = false := hf
    simp [annotateAmp, loadMillerData, hf']

/-- Witness for C8: in the concrete session table `{(1,0,0) ↦ 5, (0,1,0) ↦ 9,
(0,0,1) ↦ 7}`, an enabled lookup of a present index returns its entry, an
enabled lookup of an absent index returns 0, and a disabled lookup returns
the median amplitude 7 for an arbitrary index. -/
theorem amplitude_lookup_witness :
    annotateAmp (loadMillerData initStateRaw millerIdxsInit millerDataInit)
        (0, 1, 0) = 9 ∧
    annotateAmp (loadMillerData initStateRaw millerIdxsInit millerDataInit)
        (5, 5, 5) = 0 ∧
    annotateAmp (loadMillerData { initStateRaw with fhkl := false }
        millerIdxsInit millerDataInit) (5, 5, 5) = 7 := by
  refine ⟨?_, ?_, ?_⟩
  · exact (amplitude_lookup initStateRaw millerIdxsInit millerDataInit
      (0, 1, 0)).1 rfl 9 (by simp [dictGet, millerIdxsInit, millerDataInit])
  · exact (amplitude_lookup initStateRaw millerIdxsInit millerDataInit
      (5, 5, 5)).2.1 rfl (by simp [dictGet, millerIdxsInit, millerDataInit])
  · exact ((amplitude_lookup { initStateRaw with fhkl := false }
      millerIdxsInit millerDataInit (5, 5, 5)).2.2 rfl).trans
      (by norm_num [npMedian, millerDataInit, List.insertionSort,
        List.orderedInsert])

/-- Claim C10 (evaluating the code at the failing input): the dial name the
handlers compute does wrap around in both directions — the successor of the
last active dial `"c"` is the first dial `"DomainSize"` (via the caught
`IndexError`) and the predecessor of the first dial is the last (via Python's
negative indexing) — but both `_next_dial` and `_prev_dial` then invoke
`self._update_dial(new_dial)`, whose declared signature takes no dial
argument, so each key press raises `TypeError` and the selection never
changes. -/
theorem dial_cycling :
    nextDialCandidate { initState with currentDial := "c" } = .ok "DomainSize" ∧
    prevDialCandidate initState = .ok "c" ∧
    nextDialCandidate initState = .ok "MosAngDeg" ∧
    nextDialKey { initState with currentDial := "c" } = .error .typeErr ∧
    prevDialKey initState = .error .typeErr := by
  have hnames : initState.dialNames =
      ["DomainSize", "MosAngDeg", "Diff_gamma", "Diff_sigma", "Diff_aniso",
       "Energy", "Bandwidth", "RotX", "RotY", "RotZ", "Brightness", "a", "c"] := by
    simp [initState, initStateRaw, refreshDialOptions, resetAll,
      generateImageData, updateSpectrum, loadMillerData, moveKey, mapInsert,
      mapErase, paramsOrder, paramsOf, nominalUcell]
  have hdial : initState.currentDial = "DomainSize" := by
    simp [initState, initStateRaw, refreshDialOptions, resetAll,
      generateImageData, updateSpectrum, loadMillerData, moveKey, mapInsert,
      mapErase, paramsOrder, paramsOf, nominalUcell]
  refine ⟨?_, ?_, ?_, ?_, ?_⟩ <;>
    simp [nextDialCandidate, prevDialCandidate, nextDialKey, prevDialKey,
      listIndexOf, pyGetItem, updateDialCall, hnames, hdial, List.indexOf,
      List.findIdx, List.findIdx.go]

theorem resetAll_ucell (s : SimState) : (resetAll s).ucell = s.ucell := rfl

/-- The active-store values of a stills-mode session at defaults (`b` deleted
by symmetry; `Delta_phi` and `Image` held in the disabled store). -/
def stillsValues : VMap := fun k =>
  if k = "b" ∨ k = "Delta_phi" ∨ k = "Image" then none
  else (paramsOf nominalUcell k).map DialSpec.default

/-- The active dial list of a stills-mode session with `b` symmetry-locked. -/
def stillsNames : List String :=
  ["DomainSize", "MosAngDeg", "Diff_gamma", "Diff_sigma", "Diff_aniso",
   "Energy", "Bandwidth", "RotX", "RotY", "RotZ", "Brightness", "a", "c"]

/-- The stills-mode session reached from the initialized session by switching
to Rotation, stepping `Delta_phi` up once (0.25 → 0.30), switching back to
Stills (which parks `Delta_phi = 0.30` in the disabled store), and selecting
the `a` dial. -/
def c2base : SimState :=
  { initStateRaw with
    values := stillsValues
    disabledValues := fun k =>
      if k = "Delta_phi" then some (3/10)
      else if k = "Image" then some 1 else none
    dialNames := stillsNames
    currentDial := "a" }

/-- Claim C2 (evaluating the code at the failing input): after one upward
step of the `a` dial from `c2base`, `_reset` restores the stored value of the
active dial `a` to its default 79, but it leaves the derived scaled unit cell
at the stepped lengths `a = b = 82.95` (so the scaled cell no longer equals
the nominal cell) and leaves the disabled `Delta_phi` at 0.30 rather than its
default 0.25: reset misses both the derived state and the disabled dials. -/
theorem reset_all_incomplete :
    (resetAll (smallStepUp c2base)).values "a" = some 79 ∧
    (resetAll (smallStepUp c2base)).scaledUcell.a = 1659 / 20 ∧
    (resetAll (smallStepUp c2base)).scaledUcell.b = 1659 / 20 ∧
    (resetAll (smallStepUp c2base)).scaledUcell ≠
      (resetAll (smallStepUp c2base)).ucell ∧
    (resetAll (smallStepUp c2base)).disabledValues "Delta_phi" = some (3 / 10) ∧
    ((resetAll (smallStepUp c2base)).params "Delta_phi").map DialSpec.default =
      some (1 / 4) := by
  have hp : c2base.params c2base.currentDial =
      some ⟨79/2, 158, 79/20, 79/10, 79⟩ := by
    simp [c2base, initStateRaw, paramsOf, nominalUcell]
    norm_num
  have hv : dialValue c2base "a" = 79 := by
    simp [dialValue, c2base, initStateRaw, stillsValues, paramsOf, nominalUcell]
  have hcd : c2base.currentDial = "a" := rfl
  have hstep : smallStepUp c2base = setNewValue c2base "a" (1659/20) := by
    have hg : dialValue c2base c2base.currentDial + (79/20 : ℚ) ≤ 158 := by
      rw [hcd, hv]; norm_num
    have h := smallStepUp_accepted c2base ⟨79/2, 158, 79/20, 79/10, 79⟩ hp hg
    rw [h, hcd, hv]; norm_num
  have hb : "b" ∉ c2base.dialNames := by
    simp [c2base, stillsNames]
  have hc : "c" ∈ c2base.dialNames := by
    simp [c2base, stillsNames]
  have hscaled : (setNewValue c2base "a" (1659/20)).scaledUcell =
      ⟨1659/20, 1659/20 / 79 * 79, 38, 90, 90, 90⟩ := by
    rw [setNewValue_a_scaledUcell c2base (1659/20) hb hc]; rfl
  have hnames : (setNewValue c2base "a" (1659/20)).dialNames = stillsNames := by
    rw [setNewValue_dialNames]; rfl
  have hparams : (setNewValue c2base "a" (1659/20)).params =
      paramsOf nominalUcell := by
    rw [setNewValue_params]; rfl
  refine ⟨?_, ?_, ?_, ?_, ?_, ?_⟩
  · rw [hstep, resetAll_values, hnames, hparams]
    simp [stillsNames, paramsOf, nominalUcell]
  · rw [hstep, resetAll_scaledUcell, hscaled]
  · rw [hstep, resetAll_scaledUcell, hscaled]; norm_num
  · rw [hstep, resetAll_scaledUcell, resetAll_ucell, hscaled,
      setNewValue_ucell]
    simp only [c2base]
    intro h
    have := congrArg UCell.a h
    norm_num [initStateRaw, nominalUcell] at this
  · rw [hstep, resetAll_disabledValues, setNewValue_disabledValues]
    simp [c2base]
  · rw [hstep, resetAll_params, hparams]
    simp [paramsOf]

theorem refreshDialOptions_spectrumAng (s : SimState) :
    (refreshDialOptions s).spectrumAng = s.spectrumAng := rfl

theorem refreshDialOptions_spectrumShape (s : SimState) :
    (refreshDialOptions s).spectrumShape = s.spectrumShape := rfl

/-- A real mode switch never re-runs the spectrum model: `spectrum_Ang`
survives `_update_still_or_rot` unchanged. -/
theorem updateStillOrRot_spectrumAng (s : SimState) (nc : String)
    (h : nc ≠ s.currentExpt) :
    (updateStillOrRot s nc).spectrumAng = s.spectrumAng := by
  simp only [updateStillOrRot, if_neg h, generateImageData_spectrumAng,
    refreshDialOptions_spectrumAng]
  split_ifs <;> rfl

/-- Entering Rotation mode sets the shape tag to monochromatic. -/
theorem updateStillOrRot_shape_rotation (s : SimState)
    (h : "Rotation" ≠ s.currentExpt) :
    (updateStillOrRot s "Rotation").spectrumShape = .monochromatic := by
  simp only [updateStillOrRot, if_neg h, generateImageData_spectrumShape,
    refreshDialOptions_spectrumShape]
  norm_num

/-- Claim C3 (evaluating the code at the failing input): selecting Rotation
from the initialized Gaussian stills session forces the spectrum-shape tag
to monochromatic, but `_update_still_or_rot` never re-runs
`_update_spectrum`, so the spectrum the simulator call receives is still the
101-point Gaussian list left over from stills mode, not the single-line
monochromatic spectrum recomputed from the Energy dial. -/
theorem rotation_stale_spectrum :
    (updateStillOrRot initState "Rotation").spectrumShape =
      SpectrumShape.monochromatic ∧
    (mkSimCall (updateStillOrRot initState "Rotation")).spectrum =
      initState.spectrumAng ∧
    initState.spectrumAng.length = 101 ∧
    (updateStillOrRot initState "Rotation").spectrumAng ≠
      [(12398 / dialValue (updateStillOrRot initState "Rotation") "Energy",
        10 ^ 12)] := by
  have hexpt : initState.currentExpt = "Serial (stills)" := by
    simp [initState, initStateRaw, refreshDialOptions, resetAll,
      generateImageData, updateSpectrum, loadMillerData, moveKey, mapInsert,
      mapErase, paramsOrder, paramsOf, nominalUcell]
  have hne : ("Rotation" : String) ≠ initState.currentExpt := by
    rw [hexpt]; decide
  have hlen : initState.spectrumAng.length = 101 := by
    simp [initState, initStateRaw, refreshDialOptions, resetAll,
      generateImageData, updateSpectrum, loadMillerData, moveKey, mapInsert,
      mapErase, paramsOrder, paramsOf, nominalUcell, gaussOffsets,
      Function.comp_def]
  refine ⟨updateStillOrRot_shape_rotation initState hne, ?_, hlen, ?_⟩
  · show (updateStillOrRot initState "Rotation").spectrumAng =
      initState.spectrumAng
    exact updateStillOrRot_spectrumAng initState "Rotation" hne
  · rw [updateStillOrRot_spectrumAng initState "Rotation" hne]
    intro h
    have hlength := congrArg List.length h
    rw [hlen] at hlength
    simp at hlength

theorem generateImageData_saseIter (s : SimState) (b : Bool) :
    (generateImageData s b).saseIter = s.saseIter := rfl

theorem generateImageData_currentDial (s : SimState) (b : Bool) :
    (generateImageData s b).currentDial = s.currentDial := rfl

theorem generateImageData_params (s : SimState) (b : Bool) :
    (generateImageData s b).params = s.params := rfl

theorem updateSpectrum_currentDial (s : SimState) (np ini : Bool) :
    (updateSpectrum s np ini).currentDial = s.currentDial := by
  cases h : s.spectrumShape <;> simp [updateSpectrum, h]

theorem updateUcell_currentDial (s : SimState) (d : String) (v : ℚ) :
    (updateUcell s d v).currentDial = s.currentDial := by
  simp only [updateUcell]; split_ifs <;> rfl

theorem setNewValue_currentDial (s : SimState) (d : String) (v : ℚ) :
    (setNewValue s d v).currentDial = s.currentDial := by
  simp only [setNewValue]
  split_ifs <;>
    simp [generateImageData_currentDial, updateSpectrum_currentDial,
      updateUcell_currentDial, updateNormalization]

theorem updateUcell_spectrumShape (s : SimState) (d : String) (v : ℚ) :
    (updateUcell s d v).spectrumShape = s.spectrumShape := by
  simp only [updateUcell]; split_ifs <;> rfl

theorem setNewValue_spectrumShape (s : SimState) (d : String) (v : ℚ) :
    (setNewValue s d v).spectrumShape = s.spectrumShape := by
  simp only [setNewValue]
  split_ifs <;>
    simp [generateImageData_spectrumShape, updateSpectrum_spectrumShape,
      updateUcell_spectrumShape, updateNormalization]

/-- The SASE branch of `_update_spectrum` with `init=True`: the generator is
re-created at the current Energy value and the first pulse of the restarted
sequence is drawn immediately. -/
theorem updateSpectrum_sase_init (t : SimState) (ht : t.spectrumShape = .sase) :
    (updateSpectrum t false true).spectrumAng =
      (sasePulseAng (dialValue t "Energy") 0).zip
        (sasePulseFlux (dialValue t "Energy") 0) ∧
    (updateSpectrum t false true).saseIter = (dialValue t "Energy", 1) := by
  constructor <;> simp [updateSpectrum, ht]

/-- The SASE branch of `_update_spectrum` with `new_pulse=True`: the resumable
generator yields the pulse at its current position and advances. -/
theorem updateSpectrum_sase_newPulse (t : SimState)
    (ht : t.spectrumShape = .sase) :
    (updateSpectrum t true false).spectrumAng =
      (sasePulseAng t.saseIter.1 t.saseIter.2).zip
        (sasePulseFlux t.saseIter.1 t.saseIter.2) ∧
    (updateSpectrum t true false).saseIter = (t.saseIter.1, t.saseIter.2 + 1) := by
  constructor <;> simp [updateSpectrum, ht]

/-- `_set_new_value` on the Energy dial routes through
`_update_spectrum(init=True)` after storing the new value. -/
theorem setNewValue_energy_red (t : SimState) (u : ℚ) :
    setNewValue t "Energy" u =
      generateImageData
        (updateSpectrum { t with values := mapInsert t.values "Energy" u }
          false true) false := by
  simp [setNewValue]

/-- `_set_new_value` on the Bandwidth dial routes through
`_update_spectrum(init=True)` after storing the new value. -/
theorem setNewValue_bandwidth_red (t : SimState) (u : ℚ) :
    setNewValue t "Bandwidth" u =
      generateImageData
        (updateSpectrum { t with values := mapInsert t.values "Bandwidth" u }
          false true) false := by
  simp [setNewValue]

/-- Claim C1 (amended): for the SASE variant an Energy or Bandwidth parameter
change is not a no-op: it re-initializes the SASE generator at the current
Energy dial value and immediately draws the first pulse of the restarted
sequence, replacing the displayed spectrum; consecutive parameter changes
that leave Energy unchanged reproduce the same first pulse, and an explicit
new-pulse request is what advances within the current sequence. -/
theorem sase_param_change_redraws (s : SimState) (v w : ℚ)
    (hs : s.spectrumShape = .sase) :
    (setNewValue s "Energy" v).spectrumAng =
      (sasePulseAng v 0).zip (sasePulseFlux v 0) ∧
    (setNewValue s "Energy" v).saseIter = (v, 1) ∧
    (setNewValue s "Bandwidth" v).spectrumAng =
      (sasePulseAng (dialValue s "Energy") 0).zip
        (sasePulseFlux (dialValue s "Energy") 0) ∧
    (setNewValue (setNewValue s "Bandwidth" v) "Bandwidth" w).spectrumAng =
      (setNewValue s "Bandwidth" v).spectrumAng ∧
    (newPulseRequest s).spectrumAng =
      (sasePulseAng s.saseIter.1 s.saseIter.2).zip
        (sasePulseFlux s.saseIter.1 s.saseIter.2) ∧
    (newPulseRequest s).saseIter = (s.saseIter.1, s.saseIter.2 + 1) := by
  have hbw : ∀ (t : SimState), t.spectrumShape = .sase → ∀ u,
      (setNewValue t "Bandwidth" u).spectrumAng =
        (sasePulseAng (dialValue t "Energy") 0).zip
          (sasePulseFlux (dialValue t "Energy") 0) := by
    intro t ht u
    rw [setNewValue_bandwidth_red, generateImageData_spectrumAng,
      (updateSpectrum_sase_init
        { t with values := mapInsert t.values "Bandwidth" u } (by exact ht)).1]
    have hE : dialValue { t with values := mapInsert t.values "Bandwidth" u }
        "Energy" = dialValue t "Energy" := by
      simp [dialValue, mapInsert_other t.values "Bandwidth" "Energy" u
        (by decide)]
    rw [hE]
  refine ⟨?_, ?_, hbw s hs v, ?_, ?_, ?_⟩
  · rw [setNewValue_energy_red, generateImageData_spectrumAng,
      (updateSpectrum_sase_init
        { s with values := mapInsert s.values "Energy" v } (by exact hs)).1]
    have hE : dialValue { s with values := mapInsert s.values "Energy" v }
        "Energy" = v := by
      simp [dialValue]
    rw [hE]
  · rw [setNewValue_energy_red, generateImageData_saseIter,
      (updateSpectrum_sase_init
        { s with values := mapInsert s.values "Energy" v } (by exact hs)).2]
    have hE : dialValue { s with values := mapInsert s.values "Energy" v }
        "Energy" = v := by
      simp [dialValue]
    rw [hE]
  · have hshape2 : (setNewValue s "Bandwidth" v).spectrumShape = .sase := by
      rw [setNewValue_spectrumShape]; exact hs
    have henergy : dialValue (setNewValue s "Bandwidth" v) "Energy" =
        dialValue s "Energy" := by
      rw [dialValue, setNewValue_values,
        mapInsert_other s.values "Bandwidth" "Energy" v (by decide), dialValue]
    rw [hbw (setNewValue s "Bandwidth" v) hshape2 w, hbw s hs v, henergy]
  · rw [newPulseRequest, generateImageData_spectrumAng,
      (updateSpectrum_sase_newPulse _ hs).1]
  · rw [newPulseRequest, generateImageData_saseIter,
      (updateSpectrum_sase_newPulse _ hs).2]

/-- Bundled effect of a `_set_new_value` on Energy while SASE is active. -/
theorem setNewValue_energy_sase (t : SimState) (ht : t.spectrumShape = .sase)
    (u : ℚ) :
    (setNewValue t "Energy" u).spectrumAng =
      (sasePulseAng u 0).zip (sasePulseFlux u 0) ∧
    (setNewValue t "Energy" u).spectrumShape = .sase ∧
    (setNewValue t "Energy" u).currentDial = t.currentDial ∧
    (setNewValue t "Energy" u).params = t.params ∧
    dialValue (setNewValue t "Energy" u) "Energy" = u := by
  have hE : dialValue { t with values := mapInsert t.values "Energy" u }
      "Energy" = u := by simp [dialValue]
  refine ⟨?_, ?_, setNewValue_currentDial t "Energy" u,
    setNewValue_params t "Energy" u, ?_⟩
  · rw [setNewValue_energy_red, generateImageData_spectrumAng,
      (updateSpectrum_sase_init
        { t with values := mapInsert t.values "Energy" u } (by exact ht)).1, hE]
  · rw [setNewValue_spectrumShape]; exact ht
  · simp [dialValue, setNewValue_values]

/-- The SASE session reached from the initialized session by toggling the
spectrum shape once (Gaussian → SASE, which initializes the generator at
Energy = 9500 and draws pulse 0) and selecting the Energy dial. -/
def saseSession : SimState :=
  { toggleSpectrumShape initState with currentDial := "Energy" }

/-- Claim C1 counterexample: with SASE active, two consecutive
parameter-change updates — two upward steps of the Energy dial, with no
new-pulse request between them — leave different spectra, refuting the claim
that such updates keep the wavelength/flux list identical: each step
re-initializes the SASE generator at the stepped energy and draws a fresh
pulse recast there. -/
theorem sase_param_change_changes_spectrum :
    (smallStepUp (smallStepUp saseSession)).spectrumAng ≠
      (smallStepUp saseSession).spectrumAng := by
  have hshape0 : initState.spectrumShape = .gaussian := by
    simp [initState, initStateRaw, refreshDialOptions, resetAll,
      generateImageData, updateSpectrum, loadMillerData, moveKey, mapInsert,
      mapErase, paramsOrder, paramsOf, nominalUcell]
  have hE0 : dialValue initState "Energy" = 9500 := by
    simp [initState, initStateRaw, refreshDialOptions, resetAll,
      generateImageData, updateSpectrum, loadMillerData, moveKey, mapInsert,
      mapErase, paramsOrder, paramsOf, nominalUcell, dialValue]
  have htog : toggleSpectrumShape initState =
      generateImageData
        (updateSpectrum { initState with spectrumShape := .sase } false true)
        false := by
    simp [toggleSpectrumShape, hshape0]
  have hvals : saseSession.values = initState.values := by
    show (toggleSpectrumShape initState).values = initState.values
    rw [htog, generateImageData_values, updateSpectrum_values]
  have hshape : saseSession.spectrumShape = .sase := by
    show (toggleSpectrumShape initState).spectrumShape = .sase
    rw [htog, generateImageData_spectrumShape, updateSpectrum_spectrumShape]
  have hparams : saseSession.params = paramsOf nominalUcell := by
    show (toggleSpectrumShape initState).params = paramsOf nominalUcell
    rw [htog, generateImageData_params, updateSpectrum_params]
    rfl
  have hcd : saseSession.currentDial = "Energy" := rfl
  have hEs : dialValue saseSession "Energy" = 9500 := by
    simp only [dialValue, hvals]
    exact hE0
  have hp1 : saseSession.params saseSession.currentDial =
      some ⟨6500, 12000, 10, 30, 9500⟩ := by
    rw [hcd, hparams]; simp [paramsOf]
  have hstep1 : smallStepUp saseSession = setNewValue saseSession "Energy" 9510 := by
    have h := smallStepUp_accepted saseSession ⟨6500, 12000, 10, 30, 9500⟩ hp1
      (by rw [hcd, hEs]; norm_num)
    rw [h, hcd, hEs]; norm_num
  obtain ⟨hspec1, hshape1, hcd1, hparams1, hE1⟩ :=
    setNewValue_energy_sase saseSession hshape 9510
  have hp2 : (setNewValue saseSession "Energy" 9510).params
      (setNewValue saseSession "Energy" 9510).currentDial =
      some ⟨6500, 12000, 10, 30, 9500⟩ := by
    rw [hparams1, hcd1, hcd, hparams]; simp [paramsOf]
  have hstep2 : smallStepUp (setNewValue saseSession "Energy" 9510) =
      setNewValue (setNewValue saseSession "Energy" 9510) "Energy" 9520 := by
    have h := smallStepUp_accepted (setNewValue saseSession "Energy" 9510)
      ⟨6500, 12000, 10, 30, 9500⟩ hp2 (by rw [hcd1, hcd, hE1]; norm_num)
    rw [h, hcd1, hcd, hE1]; norm_num
  obtain ⟨hspec2, _, _, _, _⟩ :=
    setNewValue_energy_sase (setNewValue saseSession "Energy" 9510) hshape1 9520
  rw [hstep1, hstep2, hspec1, hspec2]
  simp [sasePulseAng, sasePulseFlux]
  norm_num

/-- Witness for the amended C1 theorem at the concrete SASE session:
stepping Bandwidth re-initializes the generator at Energy 9500 and redraws
pulse 0 there. -/
theorem sase_param_change_redraws_witness :
    (setNewValue saseSession "Bandwidth" (41/100)).spectrumAng =
      (sasePulseAng (dialValue saseSession "Energy") 0).zip
        (sasePulseFlux (dialValue saseSession "Energy") 0) := by
  have hshape0 : initState.spectrumShape = .gaussian := by
    simp [initState, initStateRaw, refreshDialOptions, resetAll,
      generateImageData, updateSpectrum, loadMillerData, moveKey, mapInsert,
      mapErase, paramsOrder, paramsOf, nominalUcell]
  have hshape : saseSession.spectrumShape = .sase := by
    show (toggleSpectrumShape initState).spectrumShape = .sase
    rw [show toggleSpectrumShape initState =
        generateImageData
          (updateSpectrum { initState with spectrumShape := .sase } false true)
          false from by simp [toggleSpectrumShape, hshape0],
      generateImageData_spectrumShape, updateSpectrum_spectrumShape]
  exact (sase_param_change_redraws saseSession (41/100) 0 hshape).2.2.1

theorem generateImageData_currentExpt (s : SimState) (b : Bool) :
    (generateImageData s b).currentExpt = s.currentExpt := rfl

theorem refreshDialOptions_currentExpt (s : SimState) :
    (refreshDialOptions s).currentExpt = s.currentExpt := rfl

theorem moveKey_fst (src dst : VMap) (key j : String) :
    (moveKey src dst key).1 j = if j = key then none else src j := by
  cases h : src key
  · simp only [moveKey, h]
    split_ifs with hj
    · rw [hj, h]
    · rfl
  · simp only [moveKey, h, mapErase]

theorem moveKey_snd (src dst : VMap) (key j : String) :
    (moveKey src dst key).2 j = if j = key then (src key).or (dst key) else dst j := by
  cases h : src key
  · simp only [moveKey, h, Option.none_or]
    split_ifs with hj
    · rw [hj]
    · rfl
  · simp only [moveKey, h, mapInsert]
    split_ifs with hj <;> rfl

/-- Pointwise description of the active store after `_refresh_dial_options`:
in Rotation the stills-only dials are gone and `Delta_phi`/`Image` are pulled
from the disabled store when present; in Stills, symmetrically. -/
theorem refreshDialOptions_values_lookup (s : SimState) (j : String) :
    (refreshDialOptions s).values j =
      if s.rotation then
        (if j = "Bandwidth" ∨ j = "RotX" ∨ j = "RotY" then none
         else if j = "Delta_phi" ∨ j = "Image" then
           (s.disabledValues j).or (s.values j)
         else s.values j)
      else
        (if j = "Bandwidth" ∨ j = "RotX" ∨ j = "RotY" then
           (s.disabledValues j).or (s.values j)
         else if j = "Delta_phi" ∨ j = "Image" then none
         else s.values j) := by
  cases hrot : s.rotation <;>
    simp only [refreshDialOptions, hrot, Bool.false_eq_true, if_false, if_true,
      moveKey_fst, moveKey_snd] <;>
    split_ifs <;> simp_all

/-- Pointwise description of the disabled store after `_refresh_dial_options`. -/
theorem refreshDialOptions_disabled_lookup (s : SimState) (j : String) :
    (refreshDialOptions s).disabledValues j =
      if s.rotation then
        (if j = "Bandwidth" ∨ j = "RotX" ∨ j = "RotY" then
           (s.values j).or (s.disabledValues j)
         else if j = "Delta_phi" ∨ j = "Image" then none
         else s.disabledValues j)
      else
        (if j = "Bandwidth" ∨ j = "RotX" ∨ j = "RotY" then none
         else if j = "Delta_phi" ∨ j = "Image" then
           (s.values j).or (s.disabledValues j)
         else s.disabledValues j) := by
  cases hrot : s.rotation <;>
    simp only [refreshDialOptions, hrot, Bool.false_eq_true, if_false, if_true,
      moveKey_fst, moveKey_snd] <;>
    split_ifs <;> simp_all

/-- `_update_still_or_rot` into Rotation, unfolded. -/
theorem updateStillOrRot_toRot (s : SimState) (h : "Rotation" ≠ s.currentExpt) :
    updateStillOrRot s "Rotation" =
      generateImageData (refreshDialOptions
        { s with currentExpt := "Rotation", rotation := true,
                 spectrumShape := .monochromatic }) false := by
  simp only [updateStillOrRot, if_neg h]
  rfl

/-- `_update_still_or_rot` back to Stills, unfolded. -/
theorem updateStillOrRot_toStills (s : SimState)
    (h : "Serial (stills)" ≠ s.currentExpt) :
    updateStillOrRot s "Serial (stills)" =
      generateImageData (refreshDialOptions
        { s with currentExpt := "Serial (stills)", rotation := false }) false := by
  simp only [updateStillOrRot, if_neg h]
  rfl

/-- Claim C6: from any well-formed stills-mode session (mode-exclusive dials
`Delta_phi`/`Image` absent from the active store, and `Bandwidth`/`RotX`/
`RotY` present in the active store whenever a disabled copy exists), the mode
switch Stills → Rotation → Stills restores every dial's stored value exactly;
on entering Rotation the stills-only dials are parked in the disabled store
with their values retained. -/
theorem mode_switch_roundtrip (s : SimState)
    (hexpt : s.currentExpt = "Serial (stills)")
    (hdphi : s.values "Delta_phi" = none)
    (himg : s.values "Image" = none)
    (hbw : (s.disabledValues "Bandwidth").isSome → (s.values "Bandwidth").isSome)
    (hrx : (s.disabledValues "RotX").isSome → (s.values "RotX").isSome)
    (hry : (s.disabledValues "RotY").isSome → (s.values "RotY").isSome) :
    (∀ k, (updateStillOrRot (updateStillOrRot s "Rotation")
        "Serial (stills)").values k = s.values k) ∧
    ((s.values "Bandwidth").isSome →
      (updateStillOrRot s "Rotation").disabledValues "Bandwidth" =
        s.values "Bandwidth") ∧
    ((s.values "RotX").isSome →
      (updateStillOrRot s "Rotation").disabledValues "RotX" =
        s.values "RotX") ∧
    ((s.values "RotY").isSome →
      (updateStillOrRot s "Rotation").disabledValues "RotY" =
        s.values "RotY") := by
  have hne1 : ("Rotation" : String) ≠ s.currentExpt := by rw [hexpt]; decide
  have hmidExpt : (updateStillOrRot s "Rotation").currentExpt = "Rotation" := by
    rw [updateStillOrRot_toRot s hne1, generateImageData_currentExpt,
      refreshDialOptions_currentExpt]
  have hne2 : ("Serial (stills)" : String) ≠
      (updateStillOrRot s "Rotation").currentExpt := by
    rw [hmidExpt]; decide
  have hdis : ∀ j, (updateStillOrRot s "Rotation").disabledValues j =
      (if j = "Bandwidth" ∨ j = "RotX" ∨ j = "RotY" then
         (s.values j).or (s.disabledValues j)
       else if j = "Delta_phi" ∨ j = "Image" then none
       else s.disabledValues j) := by
    intro j
    rw [updateStillOrRot_toRot s hne1, generateImageData_disabledValues,
      refreshDialOptions_disabled_lookup]
    simp
  have hval : ∀ j, (updateStillOrRot s "Rotation").values j =
      (if j = "Bandwidth" ∨ j = "RotX" ∨ j = "RotY" then none
       else if j = "Delta_phi" ∨ j = "Image" then
         (s.disabledValues j).or (s.values j)
       else s.values j) := by
    intro j
    rw [updateStillOrRot_toRot s hne1, generateImageData_values,
      refreshDialOptions_values_lookup]
    simp
  have hor : ∀ (a b : Option ℚ), (b.isSome → a.isSome) → a.or b = a := by
    intro a b h
    cases a with
    | some x => rfl
    | none =>
      cases b with
      | none => rfl
      | some x =>
        have := h (by simp)
        simp at this
  refine ⟨?_, ?_, ?_, ?_⟩
  · intro k
    rw [updateStillOrRot_toStills _ hne2, generateImageData_values,
      refreshDialOptions_values_lookup]
    simp only [Bool.false_eq_true, if_false]
    rw [show ({ updateStillOrRot s "Rotation" with
        currentExpt := "Serial (stills)", rotation := false } : SimState).values
        = (updateStillOrRot s "Rotation").values from rfl,
      show ({ updateStillOrRot s "Rotation" with
        currentExpt := "Serial (stills)", rotation := false } : SimState).disabledValues
        = (updateStillOrRot s "Rotation").disabledValues from rfl,
      hdis k, hval k]
    by_cases h1 : k = "Bandwidth"
    · subst h1
      norm_num
      exact hor _ _ hbw
    by_cases h2 : k = "RotX"
    · subst h2
      norm_num
      exact hor _ _ hrx
    by_cases h3 : k = "RotY"
    · subst h3
      norm_num
      exact hor _ _ hry
    by_cases h4 : k = "Delta_phi"
    · subst h4
      norm_num
      exact hdphi.symm
    by_cases h5 : k = "Image"
    · subst h5
      norm_num
      exact himg.symm
    · simp [h1, h2, h3, h4, h5]
  · intro hsome
    rw [hdis "Bandwidth"]
    norm_num
    rcases hv : s.values "Bandwidth" with _ | x
    · rw [hv] at hsome; simp at hsome
    · rfl
  · intro hsome
    rw [hdis "RotX"]
    norm_num
    rcases hv : s.values "RotX" with _ | x
    · rw [hv] at hsome; simp at hsome
    · rfl
  · intro hsome
    rw [hdis "RotY"]
    norm_num
    rcases hv : s.values "RotY" with _ | x
    · rw [hv] at hsome; simp at hsome
    · rfl

/-- Witness for C6 at the initialized session: the Bandwidth value survives
the Stills → Rotation → Stills round trip. -/
theorem mode_switch_roundtrip_witness :
    (updateStillOrRot (updateStillOrRot initState "Rotation")
      "Serial (stills)").values "Bandwidth" = initState.values "Bandwidth" :=
  (mode_switch_roundtrip initState
    (by simp [initState, initStateRaw, refreshDialOptions, resetAll,
      generateImageData, updateSpectrum, loadMillerData, moveKey, mapInsert,
      mapErase, paramsOrder, paramsOf, nominalUcell])
    (by simp [initState, initStateRaw, refreshDialOptions, resetAll,
      generateImageData, updateSpectrum, loadMillerData, moveKey, mapInsert,
      mapErase, paramsOrder, paramsOf, nominalUcell])
    (by simp [initState, initStateRaw, refreshDialOptions, resetAll,
      generateImageData, updateSpectrum, loadMillerData, moveKey, mapInsert,
      mapErase, paramsOrder, paramsOf, nominalUcell])
    (by intro h
        simp [initState, initStateRaw, refreshDialOptions, resetAll,
          generateImageData, updateSpectrum, loadMillerData, moveKey, mapInsert,
          mapErase, paramsOrder, paramsOf, nominalUcell] at h)
    (by intro h
        simp [initState, initStateRaw, refreshDialOptions, resetAll,
          generateImageData, updateSpectrum, loadMillerData, moveKey, mapInsert,
          mapErase, paramsOrder, paramsOf, nominalUcell] at h)
    (by intro h
        simp [initState, initStateRaw, refreshDialOptions, resetAll,
          generateImageData, updateSpectrum, loadMillerData, moveKey, mapInsert,
          mapErase, paramsOrder, paramsOf, nominalUcell] at h)).1 "Bandwidth"

/-! ### Normalization: percentile bounds and idempotence -/

theorem normalizeImageData_eq (p : ℚ) (data : List ℚ) :
    normalizeImageData p data =
      data.map (fun v => min (v * (1 / max epsQ (percentileValue p data))) 1) :=
  rfl

theorem exists_max_mem (l : List ℚ) (h : l ≠ []) :
    ∃ m ∈ l, ∀ x ∈ l, x ≤ m := by
  induction l with
  | nil => exact absurd rfl h
  | cons a t ih =>
    cases t with
    | nil =>
      refine ⟨a, by simp, ?_⟩
      intro x hx
      simp at hx
      rw [hx]
    | cons b t' =>
      obtain ⟨m, hm, hall⟩ := ih (by simp)
      by_cases hc : a ≤ m
      · refine ⟨m, by simp [hm], ?_⟩
        intro x hx
        rcases List.mem_cons.mp hx with hx | hx
        · rw [hx]; exact hc
        · exact hall x hx
      · refine ⟨a, by simp, ?_⟩
        intro x hx
        rcases List.mem_cons.mp hx with hx | hx
        · rw [hx]
        · exact le_trans (hall x hx) (le_of_not_le hc)

/-- `np.percentile` with linear interpolation never exceeds an upper bound of
the data. -/
theorem percentile_le (p : ℚ) (l : List ℚ) (M : ℚ) (hl : l ≠ [])
    (hp0 : 0 ≤ p) (hp1 : p ≤ 100) (hM : ∀ x ∈ l, x ≤ M) :
    percentileValue p l ≤ M := by
  have hperm := List.perm_insertionSort ((· ≤ ·) : ℚ → ℚ → Prop) l
  have hsort := List.sorted_insertionSort ((· ≤ ·) : ℚ → ℚ → Prop) l
  have hlen : (l.insertionSort (· ≤ ·)).length = l.length := hperm.length_eq
  have hn : 1 ≤ l.length := List.length_pos.mpr hl
  set sorted := l.insertionSort (· ≤ ·) with hsorted
  set r : ℚ := p / 100 * ((l.length : ℚ) - 1) with hrdef
  have hn1 : (0 : ℚ) ≤ (l.length : ℚ) - 1 := by
    have : (1 : ℚ) ≤ (l.length : ℚ) := by exact_mod_cast hn
    linarith
  have hr0 : 0 ≤ r := by
    apply mul_nonneg _ hn1
    positivity
  have hr1 : r ≤ (l.length : ℚ) - 1 := by
    have hple : p / 100 ≤ 1 := by linarith [div_le_one_of_le hp1 (by norm_num : (0:ℚ) ≤ 100)]
    nlinarith
  set k : ℕ := (⌊r⌋).toNat with hkdef
  have hkz : (k : ℤ) = ⌊r⌋ := Int.toNat_of_nonneg (Int.floor_nonneg.mpr hr0)
  have hkr : (k : ℚ) ≤ r := by
    have := Int.floor_le r
    rw [← hkz] at this
    exact_mod_cast this
  have hf1 : r - (k : ℚ) < 1 := by
    have := Int.lt_floor_add_one r
    rw [← hkz] at this
    push_cast at this
    linarith
  have hkn : k < l.length := by
    have h1 : ⌊r⌋ ≤ ⌊(l.length : ℚ) - 1⌋ := Int.floor_le_floor hr1
    have h2 : ((l.length : ℚ) - 1) = (((l.length : ℤ) - 1 : ℤ) : ℚ) := by
      push_cast; ring
    rw [h2, Int.floor_intCast] at h1
    rw [← hkz] at h1
    omega
  have hkS : k < sorted.length := by rw [hlen]; exact hkn
  have hlo_get : sorted.getD k 0 = sorted.get ⟨k, hkS⟩ := by
    rw [List.getD_eq_get?, List.get?_eq_get hkS]
    rfl
  have hlo_mem : sorted.get ⟨k, hkS⟩ ∈ l := hperm.mem_iff.mp (sorted.get_mem _ _)
  have hlo_le : sorted.get ⟨k, hkS⟩ ≤ M := hM _ hlo_mem
  show sorted.getD k 0 +
      (r - (k : ℚ)) * (sorted.getD (k + 1) (sorted.getD k 0) - sorted.getD k 0) ≤ M
  by_cases hk1 : k + 1 < sorted.length
  · have hhi_get : sorted.getD (k + 1) (sorted.getD k 0) = sorted.get ⟨k + 1, hk1⟩ := by
      rw [List.getD_eq_get?, List.get?_eq_get hk1]
      rfl
    have hhi_mem : sorted.get ⟨k + 1, hk1⟩ ∈ l := hperm.mem_iff.mp (sorted.get_mem _ _)
    have hhi_le : sorted.get ⟨k + 1, hk1⟩ ≤ M := hM _ hhi_mem
    have hlohi : sorted.get ⟨k, hkS⟩ ≤ sorted.get ⟨k + 1, hk1⟩ :=
      hsort.rel_get_of_lt (by simp)
    rw [hhi_get, hlo_get]
    have hfr : 0 ≤ r - (k : ℚ) := by linarith
    nlinarith
  · have hhi_get : sorted.getD (k + 1) (sorted.getD k 0) = sorted.getD k 0 := by
      rw [List.getD_eq_get?, List.get?_eq_none.mpr (by omega)]
      rfl
    rw [hhi_get, hlo_get]
    nlinarith

theorem mem_normalize_le_one (p : ℚ) (b : List ℚ) :
    ∀ v ∈ normalizeImageData p b, v ≤ 1 := by
  intro v hv
  rw [normalizeImageData_eq] at hv
  obtain ⟨x, _, rfl⟩ := List.mem_map.mp hv
  exact min_le_right _ _

theorem one_mem_normalize (p : ℚ) (b : List ℚ) (hb : b ≠ [])
    (hp0 : 0 ≤ p) (hp1 : p ≤ 100) (heps : epsQ ≤ percentileValue p b) :
    (1 : ℚ) ∈ normalizeImageData p b := by
  obtain ⟨m, hm_mem, hm_max⟩ := exists_max_mem b hb
  have ht1m : percentileValue p b ≤ m := percentile_le p b m hb hp0 hp1 hm_max
  have ht1pos : 0 < percentileValue p b :=
    lt_of_lt_of_le (by norm_num [epsQ]) heps
  have hmax : max epsQ (percentileValue p b) = percentileValue p b :=
    max_eq_right heps
  rw [normalizeImageData_eq, hmax]
  refine List.mem_map.mpr ⟨m, hm_mem, ?_⟩
  have h1 : 1 ≤ m * (1 / percentileValue p b) := by
    rw [mul_one_div, le_div_iff ht1pos]
    linarith
  exact min_eq_right h1

/-- Claim C9 (amended): normalization is idempotent when the buffer is
nonempty and its percentile threshold does not fall below the `1e-50` epsilon
floor: then, under the claim's precondition that no pixel of the normalized
buffer exceeds the second-pass percentile threshold, a second `normalize`
returns the buffer unchanged. -/
theorem normalize_idempotent_amended (p : ℚ) (b : List ℚ) (hb : b ≠ [])
    (hp0 : 0 ≤ p) (hp1 : p ≤ 100) (heps : epsQ ≤ percentileValue p b)
    (hpre : ∀ v ∈ normalizeImageData p b,
      v ≤ percentileValue p (normalizeImageData p b)) :
    normalizeImageData p (normalizeImageData p b) = normalizeImageData p b := by
  have h1le := mem_normalize_le_one p b
  have hne : normalizeImageData p b ≠ [] := by
    rw [normalizeImageData_eq]
    simp [hb]
  have hone : (1 : ℚ) ∈ normalizeImageData p b :=
    one_mem_normalize p b hb hp0 hp1 heps
  have ht2 : percentileValue p (normalizeImageData p b) = 1 :=
    le_antisymm (percentile_le p _ 1 hne hp0 hp1 h1le) (hpre 1 hone)
  rw [normalizeImageData_eq p (normalizeImageData p b), ht2,
    max_eq_right (by norm_num [epsQ] : epsQ ≤ 1)]
  have hmap : ∀ v ∈ normalizeImageData p b, min (v * (1 / 1)) 1 = v := by
    intro v hv
    rw [div_one, mul_one]
    exact min_eq_left (h1le v hv)
  calc (normalizeImageData p b).map (fun v => min (v * (1 / 1)) 1)
      = (normalizeImageData p b).map id := List.map_congr_left hmap
    _ = normalizeImageData p b := List.map_id _

/-- Claim C9 counterexample: for the one-pixel buffer `[1e-50 / 2]` (its
percentile threshold falls below the epsilon floor) the claim's precondition
holds — no pixel of the once-normalized buffer exceeds the second-pass
percentile threshold — yet a second pass rescales `[1/2]` to `[1]`, so
`normalize (normalize b p) p ≠ normalize b p`. -/
theorem normalize_not_idempotent :
    (∀ v ∈ normalizeImageData (999/10) [epsQ / 2],
      v ≤ percentileValue (999/10) (normalizeImageData (999/10) [epsQ / 2])) ∧
    normalizeImageData (999/10) (normalizeImageData (999/10) [epsQ / 2]) ≠
      normalizeImageData (999/10) [epsQ / 2] := by
  have hpercs : ∀ x : ℚ, percentileValue (999/10) [x] = x := by
    intro x
    simp [percentileValue, List.insertionSort, List.orderedInsert]
  have h1 : normalizeImageData (999/10) [epsQ / 2] = [1/2] := by
    rw [normalizeImageData_eq, hpercs,
      max_eq_left (by norm_num [epsQ] : epsQ / 2 ≤ epsQ)]
    norm_num [epsQ]
  have h2 : normalizeImageData (999/10) [(1 : ℚ)/2] = [1] := by
    rw [normalizeImageData_eq, hpercs,
      max_eq_right (by norm_num [epsQ] : epsQ ≤ 1/2)]
    norm_num
  constructor
  · rw [h1, hpercs]
    intro v hv
    simp at hv
    rw [hv]
    norm_num
  · rw [h1, h2]
    intro h
    have := List.head_eq_of_cons_eq h
    norm_num at this

/-- Witness for the amended C9 theorem on the buffer `[2]` at percentile 50:
its threshold is 2 (≥ epsilon), the precondition holds, and a second
normalization pass is the identity. -/
theorem normalize_idempotent_amended_witness :
    normalizeImageData 50 (normalizeImageData 50 [2]) =
      normalizeImageData 50 [2] := by
  have hpercs : ∀ x : ℚ, percentileValue 50 [x] = x := by
    intro x
    simp [percentileValue, List.insertionSort, List.orderedInsert]
  have h1 : normalizeImageData 50 [(2 : ℚ)] = [1] := by
    rw [normalizeImageData_eq, hpercs,
      max_eq_right (by norm_num [epsQ] : epsQ ≤ 2)]
    norm_num
  exact normalize_idempotent_amended 50 [2] (by simp) (by norm_num) (by norm_num)
    (by rw [hpercs]; norm_num [epsQ])
    (by rw [h1, hpercs]
        intro v hv
        simp at hv
        rw [hv])

end SimView
